import Mathlib

/-!
Verification of the kemet-data client-side query-orchestration layer.

The definitions below are a shallow embedding of the JavaScript source:
the `escapeSQL` helper and `fetchConcordance` of the ConcordanceView
component, the `escapeSQL`, `fetchConcordance` and `loadLemma` of the
LemmaDetail component, the `exportToCSV` utility, and
`DatabaseManager.query`.  The embedded analytical engine (DuckDB-WASM)
is external to the repository and is modelled as an abstract oracle
mapping SQL text to either an error message or a list of rows, with the
sequential control flow of the orchestrator made explicit.
-/

namespace Kemet

/-- Model of the JavaScript scalar values that reach `escapeSQL` and the
CSV exporter: strings, integers, booleans, `null` and `undefined`. -/
inductive JSVal where
  | vstr (s : String)
  | vint (n : Int)
  | vbool (b : Bool)
  | vnull
  | vundefined
deriving Repr, DecidableEq

/-- JavaScript truthiness test (`!str`): empty string, `0`, `false`,
`null` and `undefined` are falsy. -/
def jsFalsy : JSVal → Bool
  | .vstr s => s == ""
  | .vint n => n == 0
  | .vbool b => !b
  | .vnull => true
  | .vundefined => true

/-- JavaScript `String(value)` conversion. -/
def jsString : JSVal → String
  | .vstr s => s
  | .vint n => toString n
  | .vbool b => if b then "true" else "false"
  | .vnull => "null"
  | .vundefined => "undefined"

/-- The single-quote character, written by code point to keep it out of
the surrounding text. -/
def squote : Char := Char.ofNat 39

/-- The double-quote character. -/
def dquote : Char := Char.ofNat 34

/-- Single-quote as a one-character string. -/
def sqs : String := String.mk [squote]

/-- Double-quote as a one-character string. -/
def dqs : String := String.mk [dquote]

/-- Character-level model of `str.replace(/q/g, "qq")` for a one-character
pattern `q`: every occurrence of `q` is doubled.  Instantiated with the
single quote for `escapeSQL` and with the double quote for the CSV
exporter. -/
def doubleChar (q : Char) : List Char → List Char
  | [] => []
  | c :: cs => if c = q then q :: q :: doubleChar q cs else c :: doubleChar q cs

/-- Inverse reading of a `doubleChar`-encoded text, as a consumer of the
encoded form (for example the SQL lexer scanning a quoted literal, where
a doubled quote denotes one quote): each doubled `q` is read back as a
single `q`. -/
def undoubleChar (q : Char) : List Char → List Char
  | [] => []
  | [c] => [c]
  | c1 :: c2 :: cs =>
    if c1 = q ∧ c2 = q then q :: undoubleChar q cs
    else c1 :: undoubleChar q (c2 :: cs)

/-- The escapeSQL helper of the ConcordanceView and LemmaDetail
components: a falsy argument returns the empty string; otherwise the
value is stringified and every single-quote character is doubled (the
global single-quote replace). -/
def escapeSQL (v : JSVal) : String :=
  if jsFalsy v then "" else (doubleChar squote (jsString v).data).asString

/-- The escapeSQL helper applied to a string argument, as at every call
site in the two components. -/
def escapeSQLs (s : String) : String := escapeSQL (.vstr s)

/-- The named filters destructured by `loadConcordance` and used by
`fetchConcordance`: only `collection` and `dialect` influence the
queries (`dateFrom`/`dateTo` are accepted but never read by the fetch).
`none` models the JavaScript `null` default. -/
structure Filters where
  collection : Option String
  dialect : Option String
deriving Repr, DecidableEq

/-- Truthiness of an optional string filter (`if (filters.dialect)`):
absent or empty means the filter is off. -/
def optTruthy : Option String → Bool
  | none => false
  | some s => !(s == "")

/-- The reject test of the deferred collection filter
(`filters.collection && context.collection_id !== filters.collection`). -/
def collRejected (filt : Option String) (cid : String) : Bool :=
  match filt with
  | none => false
  | some v => if v == "" then false else !(cid == v)

/-- A row of the ConcordanceView primary (token_instances) query. -/
structure TokenRow where
  token_id : String
  segment_id : String
  document_id : String
  form : String
  lemma_id : String
  lang : String
  position_in_segment : Int
deriving Repr, DecidableEq

/-- A row of the ConcordanceView context (segments JOIN documents)
query. -/
structure ContextRow where
  segment_id : String
  segment_text : String
  sequence : Int
  document_id : String
  document_title : String
  dialect : String
  collection_id : String
deriving Repr, DecidableEq

/-- A row of the collections query. -/
structure CollectionRow where
  collection_id : String
  name : String
deriving Repr, DecidableEq

/-- The merged record built by ConcordanceView.fetchConcordance.
`morphology` is `token.morphology`, a column the tokens query does not
select, hence always `undefined` (modelled as `none`). -/
structure CUnifiedRecord where
  token_id : String
  segment_id : String
  form : String
  morphology : Option String
  position_in_segment : Int
  segment_text : String
  sequence : Int
  document_id : String
  document_title : String
  dialect : String
  collection_id : String
  collection_name : String
deriving Repr, DecidableEq

/-- JavaScript object lookup on the map built by `Object.fromEntries`:
on duplicate keys the last entry wins. -/
def objGet (m : List (String × String)) (k : String) : Option String :=
  m.foldl (fun acc p => if p.1 == k then some p.2 else acc) none

/-- One step of the ConcordanceView merge (the body of `tokens.map` in
the final block of `fetchConcordance`): find the first context row with
the segment id of the token; return `null` when there is none or when
the deferred collection filter rejects the row.  The or-else fallbacks
to empty string and zero on context fields are identities in this typed
model (an empty string or zero maps to itself). -/
def mergeOne (filters : Filters) (contexts : List ContextRow)
    (collections : List (String × String)) (token : TokenRow) :
    Option CUnifiedRecord :=
  match contexts.find? (fun c => c.segment_id == token.segment_id) with
  | none => none
  | some context =>
    if collRejected filters.collection context.collection_id then none
    else some {
      token_id := token.token_id
      segment_id := token.segment_id
      form := token.form
      morphology := none
      position_in_segment := token.position_in_segment
      segment_text := context.segment_text
      sequence := context.sequence
      document_id := context.document_id
      document_title := context.document_title
      dialect := context.dialect
      collection_id := context.collection_id
      collection_name := (objGet collections context.collection_id).getD ""
    }

/-- The whole merge-and-filter block of ConcordanceView.fetchConcordance:
`tokens.map(...)` followed by `.filter(Boolean)`. -/
def concordanceMerge (filters : Filters) (contexts : List ContextRow)
    (collections : List (String × String)) (tokens : List TokenRow) :
    List CUnifiedRecord :=
  tokens.filterMap (mergeOne filters contexts collections)

/-- The JavaScript array join with a comma separator. -/
def inListJoin (ids : List String) : String := String.intercalate "," ids

/-- The per-token quoted segment id list of the context stage: one entry
per token row, built as quote, escaped segment id, quote — in token
order, with no deduplication. -/
def segIdStrings (tokens : List TokenRow) : List String :=
  tokens.map (fun t => sqs ++ escapeSQLs t.segment_id ++ sqs)

/-- SQL text of the ConcordanceView primary query. -/
def tokensSql (lemmaId : String) (limit : Nat) : String :=
  "SELECT token_id, segment_id, document_id, form, lemma_id, lang, " ++
  dqs ++ "order" ++ dqs ++ " as position_in_segment " ++
  "FROM corpus.token_instances WHERE lemma_id = " ++
  sqs ++ escapeSQLs lemmaId ++ sqs ++ " LIMIT " ++ toString limit

/-- SQL text of the ConcordanceView context query, with the dialect
filter pushed into the WHERE clause when truthy. -/
def contextSql (segmentIds : String) (dialect : Option String) : String :=
  "SELECT s.segment_id, s.text as segment_text, s.sequence, " ++
  "d.document_id, d.title as document_title, d.dialect, d.collection_id " ++
  "FROM corpus.segments s JOIN corpus.documents d " ++
  "ON s.document_id = d.document_id " ++
  "WHERE s.segment_id IN (" ++ segmentIds ++ ")" ++
  (if optTruthy dialect then
    " AND d.dialect = " ++ sqs ++ escapeSQLs (dialect.getD "") ++ sqs
  else "")

/-- SQL text of the collections query, with the collection filter pushed
into the WHERE clause when truthy. -/
def collectionSql (ids : String) (collection : Option String) : String :=
  "SELECT collection_id, name FROM corpus.collections " ++
  "WHERE collection_id IN (" ++ ids ++ ")" ++
  (if optTruthy collection then
    " AND collection_id = " ++ sqs ++ escapeSQLs (collection.getD "") ++ sqs
  else "")

/-- Model of `[...new Set(xs)]`: keep the first occurrence of each
element, in encounter order, skipping elements already seen. -/
def dedupFirst (seen : List String) : List String → List String
  | [] => []
  | x :: xs =>
    if x ∈ seen then dedupFirst seen xs
    else x :: dedupFirst (x :: seen) xs

/-- The distinct truthy collection ids of the context rows: a Boolean
filter over the mapped ids followed by the Set spread. -/
def collectionIdsOf (contexts : List ContextRow) : List String :=
  dedupFirst [] ((contexts.map ContextRow.collection_id).filter (fun s => !(s == "")))

/-- A LemmaDetail token row (its SELECT omits `lemma_id` and `lang`). -/
structure LDTokenRow where
  token_id : String
  segment_id : String
  document_id : String
  form : String
  position_in_segment : Int
deriving Repr, DecidableEq

/-- A LemmaDetail context row. -/
structure LDContextRow where
  segment_id : String
  segment_text : String
  document_title : String
  document_id : String
deriving Repr, DecidableEq

/-- The merged record built by LemmaDetail.fetchConcordance. -/
structure LDRecord where
  token_id : String
  segment_id : String
  lemma_id : String
  form : String
  position_in_segment : Int
  segment_text : String
  document_title : String
  document_id : String
deriving Repr, DecidableEq

/-- One step of the LemmaDetail merge: optional-chaining reads with
or-else empty-string fallbacks, so a missing context row empty-fills
the context-derived fields and never drops the token. -/
def ldMergeOne (lemmaId : String) (contexts : List LDContextRow)
    (t : LDTokenRow) : LDRecord :=
  let context := contexts.find? (fun c => c.segment_id == t.segment_id)
  { token_id := t.token_id
    segment_id := t.segment_id
    lemma_id := lemmaId
    form := t.form
    position_in_segment := t.position_in_segment
    segment_text := (context.map LDContextRow.segment_text).getD ""
    document_title := (context.map LDContextRow.document_title).getD ""
    document_id := (context.map LDContextRow.document_id).getD "" }

/-- The quoted segment id list of the LemmaDetail context stage (again
one entry per token row, no deduplication). -/
def ldSegIdStrings (tokens : List LDTokenRow) : List String :=
  tokens.map (fun t => sqs ++ escapeSQLs t.segment_id ++ sqs)

/-- SQL text of the LemmaDetail primary query. -/
def ldTokensSql (lemmaId : String) (limit : Nat) : String :=
  "SELECT token_id, segment_id, document_id, form, " ++
  dqs ++ "order" ++ dqs ++ " as position_in_segment " ++
  "FROM corpus.token_instances WHERE lemma_id = " ++
  sqs ++ escapeSQLs lemmaId ++ sqs ++ " LIMIT " ++ toString limit

/-- SQL text of the LemmaDetail context query. -/
def ldContextSql (segmentIds : String) : String :=
  "SELECT s.segment_id, s.text as segment_text, " ++
  "d.title as document_title, d.document_id " ++
  "FROM corpus.segments s JOIN corpus.documents d " ++
  "ON s.document_id = d.document_id " ++
  "WHERE s.segment_id IN (" ++ segmentIds ++ ")"

/-- An untyped result row (flat property bag), used for the LemmaDetail
queries whose contents are only rendered, never merged. -/
def BagRow : Type := List (String × JSVal)

instance : DecidableEq BagRow := by
  unfold BagRow
  infer_instance

/-- The embedded engine as seen by the orchestrator: each query is SQL
text answered with either rows or an engine error message.  The engine
itself (DuckDB-WASM) is external to the repository; one field per result
shape stands for the dynamically-typed `dbManager.query`. -/
structure Engine where
  runTokens : String → Except String (List TokenRow)
  runContexts : String → Except String (List ContextRow)
  runCollections : String → Except String (List CollectionRow)
  runLDTokens : String → Except String (List LDTokenRow)
  runLDContexts : String → Except String (List LDContextRow)
  runBag : String → Except String (List BagRow)

/-- ConcordanceView.fetchConcordance: the strictly sequential three-stage
orchestration.  The first component is the trace of SQL texts issued (in
order) and the second the outcome: an uncaught engine error rejects the
whole call.  Stage 2 is skipped when the primary result is empty; stage 3
is skipped when the (deduplicated, truthiness-filtered) collection id
list is empty, leaving the collections map empty. -/
def fetchConcordance (e : Engine) (lemmaId : String) (limit : Nat)
    (filters : Filters) : List String × Except String (List CUnifiedRecord) :=
  let tSql := tokensSql lemmaId limit
  match e.runTokens tSql with
  | .error m => ([tSql], .error m)
  | .ok tokens =>
    if tokens.length == 0 then ([tSql], .ok [])
    else
      let cSql := contextSql (inListJoin (segIdStrings tokens)) filters.dialect
      match e.runContexts cSql with
      | .error m => ([tSql, cSql], .error m)
      | .ok contexts =>
        let collectionIds := collectionIdsOf contexts
        if collectionIds.length > 0 then
          let colSql := collectionSql
            (inListJoin (collectionIds.map (fun i => sqs ++ escapeSQLs i ++ sqs)))
            filters.collection
          match e.runCollections colSql with
          | .error m => ([tSql, cSql, colSql], .error m)
          | .ok colRows =>
            ([tSql, cSql, colSql],
             .ok (concordanceMerge filters contexts
                   (colRows.map (fun c => (c.collection_id, c.name))) tokens))
        else
          ([tSql, cSql], .ok (concordanceMerge filters contexts [] tokens))

/-- LemmaDetail.fetchConcordance: two sequential stages, then the
never-dropping merge. -/
def ldFetchConcordance (e : Engine) (lemmaId : String) (limit : Nat) :
    List String × Except String (List LDRecord) :=
  let tSql := ldTokensSql lemmaId limit
  match e.runLDTokens tSql with
  | .error m => ([tSql], .error m)
  | .ok tokens =>
    if tokens.length == 0 then ([tSql], .ok [])
    else
      let cSql := ldContextSql (inListJoin (ldSegIdStrings tokens))
      match e.runLDContexts cSql with
      | .error m => ([tSql, cSql], .error m)
      | .ok contexts => ([tSql, cSql], .ok (tokens.map (ldMergeOne lemmaId contexts)))

/-- SQL text of LemmaDetail.fetchLemmaData. -/
def lemmaSql (lemmaId : String) : String :=
  "SELECT lemma_id, lemma, language, script, period, pos, pos_detail, " ++
  "gloss_en, gloss_de, semantic_domain, semantic_field, " ++
  "hieroglyphic_writing, mdc_transcription, transliteration, " ++
  "bohairic_form, sahidic_form, frequency, document_count, " ++
  "collection_count, first_attested_date, last_attested_date, " ++
  "first_attested_period, last_attested_period, source, source_id " ++
  "FROM lexicon.lemmas WHERE lemma_id = " ++ sqs ++ escapeSQLs lemmaId ++ sqs

/-- SQL text of LemmaDetail.fetchForms. -/
def formsSql (lemmaId : String) : String :=
  "SELECT form_id, form, morphology, frequency, relative_frequency " ++
  "FROM lexicon.forms WHERE lemma_id = " ++ sqs ++ escapeSQLs lemmaId ++ sqs ++
  " ORDER BY frequency DESC LIMIT 20"

/-- SQL text of LemmaDetail.fetchAttestations. -/
def attestationsSql (lemmaId : String) : String :=
  "SELECT dimension_type, dimension_value, frequency, document_count " ++
  "FROM lexicon.lemma_attestations WHERE lemma_id = " ++
  sqs ++ escapeSQLs lemmaId ++ sqs ++ " ORDER BY frequency DESC LIMIT 20"

/-- SQL text of LemmaDetail.fetchEtymology. -/
def etymologySql (lemmaId : String) : String :=
  "SELECT er.relation_id, er.relation_type, er.confidence, er.metadata, " ++
  "le.lemma as egyptian_lemma, le.gloss_en as egyptian_gloss, " ++
  "le.transliteration as egyptian_translit " ++
  "FROM lexicon.etymology_relations er " ++
  "LEFT JOIN lexicon.lemmas le ON er.target_lemma_id = le.lemma_id " ++
  "WHERE er.source_lemma_id = " ++ sqs ++ escapeSQLs lemmaId ++ sqs

/-- What LemmaDetail.loadLemma leaves on screen: an error message (the
catch-all handler or the not-found branch both call `showError`), or a
rendered page. -/
inductive LoadOutcome where
  | errorShown (msg : String)
  | rendered (lemmaData : BagRow) (forms attestations etymology : List BagRow)
      (concordance : List LDRecord)
deriving DecidableEq

/-- LemmaDetail.loadLemma: sequential fetches inside one try/catch whose
handler shows `Failed to load lemma: <message>`; the concordance fetch
alone sits in an inner try/catch that logs the failure and continues
with an empty concordance. -/
def loadLemma (e : Engine) (lemmaId : String) : LoadOutcome :=
  match e.runBag (lemmaSql lemmaId) with
  | .error m => .errorShown ("Failed to load lemma: " ++ m)
  | .ok results =>
    match results.head? with
    | none => .errorShown "Lemma not found"
    | some lemmaData =>
      match e.runBag (formsSql lemmaId) with
      | .error m => .errorShown ("Failed to load lemma: " ++ m)
      | .ok forms =>
        match e.runBag (attestationsSql lemmaId) with
        | .error m => .errorShown ("Failed to load lemma: " ++ m)
        | .ok attestations =>
          match e.runBag (etymologySql lemmaId) with
          | .error m => .errorShown ("Failed to load lemma: " ++ m)
          | .ok etymology =>
            let concordance :=
              match (ldFetchConcordance e lemmaId 5).2 with
              | .error _ => []
              | .ok c => c
            .rendered lemmaData forms attestations etymology concordance

/-- The stringification step of exportToCSV: null and undefined become
the empty string; every other value goes through String(value). -/
def csvStringValue : JSVal → String
  | .vnull => ""
  | .vundefined => ""
  | v => jsString v

/-- The quoting condition of `exportToCSV`: the stringified value
contains a comma, a double quote, or a newline. -/
def csvNeedsQuote (s : String) : Bool :=
  s.data.contains (Char.ofNat 44) || s.data.contains dquote ||
    s.data.contains (Char.ofNat 10)

/-- One CSV cell: quote-and-double when `csvNeedsQuote`, verbatim
otherwise. -/
def csvField (v : JSVal) : String :=
  let s := csvStringValue v
  if csvNeedsQuote s then dqs ++ (doubleChar dquote s.data).asString ++ dqs
  else s

/-- JavaScript property read `row[header]` on a result row: the value of
the first matching key, `undefined` when absent. -/
def bagGet (row : BagRow) (k : String) : JSVal :=
  match row.find? (fun p => p.1 == k) with
  | some p => p.2
  | none => .vundefined

/-- The exportToCSV utility (file content only; the download itself is
browser-side): on empty data no file is produced; otherwise the headers
are the keys of the FIRST row and every row is projected onto them. -/
def exportToCSV (data : List BagRow) : Option String :=
  match data with
  | [] => none
  | first :: _ =>
    let headers := first.map Prod.fst
    let csvRows := (String.intercalate "," headers) ::
      data.map (fun row =>
        String.intercalate "," (headers.map (fun h => csvField (bagGet row h))))
    some (String.intercalate "\n" csvRows)

/-- DatabaseManager.query: throws when not ready, otherwise forwards the
SQL text to the connection; the `params` argument is accepted but never
read. -/
def dmQuery (conn : String → Except String (List BagRow)) (isReady : Bool)
    (sql : String) (params : List JSVal) : Except String (List BagRow) :=
  if !isReady then .error "Database not ready" else conn sql

/-! Concrete sample data for evaluating the model on closed inputs. -/

/-- All filters at their `null` defaults. -/
def noFilters : Filters := ⟨none, none⟩

def exTok1 : TokenRow := ⟨"t1", "s1", "d1", "f1", "lem", "cop", 1⟩

def exTok2 : TokenRow := ⟨"t2", "s1", "d1", "f2", "lem", "cop", 2⟩

def exTok3 : TokenRow := ⟨"t3", "s2", "d1", "f3", "lem", "cop", 3⟩

def exCtx1 : ContextRow := ⟨"s1", "text one", 1, "d1", "Doc One", "SAHIDIC", "col1"⟩

def exColl1 : CollectionRow := ⟨"col1", "Collection One"⟩

def exLDTok1 : LDTokenRow := ⟨"t1", "s1", "d1", "f1", 1⟩

def exLDCtx1 : LDContextRow := ⟨"s1", "text one", "Doc One", "d1"⟩

def exBag1 : BagRow := [("lemma_id", .vstr "lem")]

/-- The record `fetchConcordance` builds from `exTok1` joined with
`exCtx1` and collection `exColl1`. -/
def exRec1 : CUnifiedRecord :=
  ⟨"t1", "s1", "f1", none, 1, "text one", 1, "d1", "Doc One", "SAHIDIC",
   "col1", "Collection One"⟩

/-- An engine whose every query returns no rows. -/
def emptyEngine : Engine :=
  ⟨fun _ => .ok [], fun _ => .ok [], fun _ => .ok [],
   fun _ => .ok [], fun _ => .ok [], fun _ => .ok []⟩

/-- An engine with one context row for segment `s1` and one collection. -/
def exEngine : Engine :=
  ⟨fun _ => .ok [exTok1, exTok3], fun _ => .ok [exCtx1], fun _ => .ok [exColl1],
   fun _ => .ok [exLDTok1], fun _ => .ok [exLDCtx1], fun _ => .ok [exBag1]⟩

/-- An engine whose context-stage queries raise the engine error `boom`
while every other stage succeeds. -/
def boomEngine : Engine :=
  ⟨fun _ => .ok [exTok1], fun _ => .error "boom", fun _ => .ok [],
   fun _ => .ok [exLDTok1], fun _ => .error "boom", fun _ => .ok [exBag1]⟩

/-! General lemmas about the helper functions. -/

theorem doubleChar_eq_nil {q : Char} {l : List Char} :
    doubleChar q l = [] ↔ l = [] := by
  cases l with
  | nil => simp [doubleChar]
  | cons c cs => simp only [doubleChar]; split <;> simp

theorem undoubleChar_doubleChar (q : Char) (l : List Char) :
    undoubleChar q (doubleChar q l) = l := by
  induction l with
  | nil => rfl
  | cons c cs ih =>
    by_cases hc : c = q
    · subst hc
      simp only [doubleChar, if_pos rfl, undoubleChar, and_self, if_pos]
      simpa using ih
    · simp only [doubleChar, if_neg hc]
      cases h2 : doubleChar q cs with
      | nil =>
        have : cs = [] := doubleChar_eq_nil.mp h2
        subst this
        rfl
      | cons d ds =>
        have : ¬(c = q ∧ d = q) := fun h => hc h.1
        simp only [undoubleChar, if_neg this]
        rw [← h2, ih]

theorem mem_dedupFirst (y : String) (l : List String) :
    ∀ (seen : List String), y ∈ dedupFirst seen l ↔ (y ∈ l ∧ y ∉ seen) := by
  induction l with
  | nil => intro seen; simp [dedupFirst]
  | cons x xs ih =>
    intro seen
    by_cases hx : x ∈ seen
    · rw [dedupFirst, if_pos hx, ih]
      constructor
      · rintro ⟨h1, h2⟩; exact ⟨List.mem_cons_of_mem _ h1, h2⟩
      · rintro ⟨h1, h2⟩
        rcases List.mem_cons.mp h1 with h | h
        · exact absurd (h ▸ hx) h2
        · exact ⟨h, h2⟩
    · rw [dedupFirst, if_neg hx]
      by_cases hyx : y = x
      · subst hyx; simp [hx]
      · simp only [List.mem_cons, hyx, false_or, ih]

theorem nodup_dedupFirst (l : List String) :
    ∀ (seen : List String), (dedupFirst seen l).Nodup := by
  induction l with
  | nil => intro seen; simp [dedupFirst]
  | cons x xs ih =>
    intro seen
    by_cases hx : x ∈ seen
    · rw [dedupFirst, if_pos hx]; exact ih seen
    · rw [dedupFirst, if_neg hx]
      refine List.nodup_cons.mpr ⟨fun hmem => ?_, ih (x :: seen)⟩
      exact ((mem_dedupFirst x xs (x :: seen)).mp hmem).2 (List.mem_cons_self x seen)

theorem filterMap_map_sublist {α β γ : Type} (g : α → Option β) (p : β → γ)
    (q : α → γ) (h : ∀ a b, g a = some b → p b = q a) (l : List α) :
    ((l.filterMap g).map p).Sublist (l.map q) := by
  induction l with
  | nil => simp
  | cons a l ih =>
    cases hg : g a with
    | none => simpa [List.filterMap_cons, hg] using ih.cons (q a)
    | some b =>
      simpa [List.filterMap_cons, hg, h a b hg] using ih.cons₂ (q a)

theorem mergeOne_token_id {fs : Filters} {cs : List ContextRow}
    {cols : List (String × String)} {t : TokenRow} {r : CUnifiedRecord}
    (h : mergeOne fs cs cols t = some r) : r.token_id = t.token_id := by
  cases hf : cs.find? (fun c => c.segment_id == t.segment_id) with
  | none => simp [mergeOne, hf] at h
  | some context =>
    simp only [mergeOne, hf] at h
    by_cases hrej : collRejected fs.collection context.collection_id = true
    · simp [hrej] at h
    · rw [if_neg hrej] at h
      have hr := Option.some.inj h
      rw [← hr]

theorem mergeOne_none_of_no_context {fs : Filters} {cs : List ContextRow}
    {cols : List (String × String)} {t : TokenRow}
    (h : cs.find? (fun c => c.segment_id == t.segment_id) = none) :
    mergeOne fs cs cols t = none := by
  unfold mergeOne
  rw [h]

theorem bagGet_aligned (r : BagRow) (hnd : (r.map Prod.fst).Nodup) :
    (r.map Prod.fst).map (fun h => csvField (bagGet r h)) =
      r.map (fun p => csvField p.2) := by
  induction r with
  | nil => rfl
  | cons kv r2 ih =>
    obtain ⟨k, v⟩ := kv
    rw [List.map_cons, List.map_cons, List.map_cons]
    have hk : bagGet ((k, v) :: r2) k = v := by
      simp [bagGet, List.find?]
    rw [hk]
    rw [List.map_cons] at hnd
    have hnd2 := List.nodup_cons.mp hnd
    congr 1
    have htail : ∀ h ∈ r2.map Prod.fst,
        csvField (bagGet ((k, v) :: r2) h) = csvField (bagGet r2 h) := by
      intro h hmem
      have hne : ¬(k == h) = true := by
        intro hbeq
        exact hnd2.1 (by rw [beq_iff_eq.mp hbeq]; exact hmem)
      simp [bagGet, List.find?, hne]
    rw [List.map_congr_left htail, ih hnd2.2]

/-- Whenever `fetchConcordance` succeeds, its output is the merge of the
primary rows against some context rows and collections map (the empty
ones when a later stage was skipped). -/
theorem fetchConcordance_ok_shape (e : Engine) (lemmaId : String) (limit : Nat)
    (filters : Filters) (tokens : List TokenRow) (out : List CUnifiedRecord)
    (htok : e.runTokens (tokensSql lemmaId limit) = .ok tokens)
    (hout : (fetchConcordance e lemmaId limit filters).2 = .ok out) :
    ∃ contexts cols, out = concordanceMerge filters contexts cols tokens := by
  unfold fetchConcordance at hout
  dsimp only at hout
  rw [htok] at hout
  dsimp only at hout
  by_cases h0 : (tokens.length == 0) = true
  · rw [if_pos h0] at hout
    have hnil : tokens = [] := List.length_eq_zero.mp (by simpa using h0)
    refine ⟨[], [], ?_⟩
    subst hnil
    simpa [concordanceMerge] using hout.symm
  · rw [if_neg h0] at hout
    cases hctx : e.runContexts
        (contextSql (inListJoin (segIdStrings tokens)) filters.dialect) with
    | error m => rw [hctx] at hout; exact absurd hout (by simp)
    | ok contexts =>
      rw [hctx] at hout
      dsimp only at hout
      by_cases hcol : (collectionIdsOf contexts).length > 0
      · rw [if_pos hcol] at hout
        cases hcq : e.runCollections (collectionSql
            (inListJoin ((collectionIdsOf contexts).map
              (fun i => sqs ++ escapeSQLs i ++ sqs))) filters.collection) with
        | error m => rw [hcq] at hout; exact absurd hout (by simp)
        | ok colRows =>
          rw [hcq] at hout
          dsimp only at hout
          exact ⟨contexts, colRows.map (fun c => (c.collection_id, c.name)),
            (Except.ok.inj hout).symm⟩
      · rw [if_neg hcol] at hout
        exact ⟨contexts, [], (Except.ok.inj hout).symm⟩

/-- Claim C1 counterexample: with one primary record whose key has no
match in the secondary set, the ConcordanceView merge produces zero
output records instead of `|P| = 1`: the unmatched primary record is
dropped, so the merge does not have left-join semantics. -/
theorem concordance_merge_drops_cex :
    concordanceMerge noFilters [] [] [exTok1] = [] ∧ [exTok1].length = 1 :=
  ⟨rfl, rfl⟩

/-- Claim C1 (amended): the LemmaDetail merge has left-join semantics —
exactly `|P|` output records, primary identifying fields carried over,
context-derived fields empty-filled exactly when no secondary record
shares the key — while the ConcordanceView merge returns `none` (drops
the record) whenever the key is absent from the secondary set. -/
theorem merge_left_join_amended (lemmaId : String) (contexts : List LDContextRow)
    (tokens : List LDTokenRow) :
    (tokens.map (ldMergeOne lemmaId contexts)).length = tokens.length
    ∧ (∀ t : LDTokenRow,
        (ldMergeOne lemmaId contexts t).token_id = t.token_id
        ∧ (ldMergeOne lemmaId contexts t).segment_id = t.segment_id
        ∧ (ldMergeOne lemmaId contexts t).form = t.form
        ∧ (ldMergeOne lemmaId contexts t).position_in_segment = t.position_in_segment
        ∧ (ldMergeOne lemmaId contexts t).lemma_id = lemmaId)
    ∧ (∀ t : LDTokenRow,
        contexts.find? (fun c => c.segment_id == t.segment_id) = none →
        (ldMergeOne lemmaId contexts t).segment_text = ""
        ∧ (ldMergeOne lemmaId contexts t).document_title = ""
        ∧ (ldMergeOne lemmaId contexts t).document_id = "")
    ∧ (∀ (t : LDTokenRow) (c : LDContextRow),
        contexts.find? (fun c2 => c2.segment_id == t.segment_id) = some c →
        (ldMergeOne lemmaId contexts t).segment_text = c.segment_text
        ∧ (ldMergeOne lemmaId contexts t).document_title = c.document_title
        ∧ (ldMergeOne lemmaId contexts t).document_id = c.document_id)
    ∧ (∀ (fs : Filters) (cs : List ContextRow) (cols : List (String × String))
        (tk : TokenRow),
        cs.find? (fun c2 => c2.segment_id == tk.segment_id) = none →
        mergeOne fs cs cols tk = none) := by
  refine ⟨by simp, fun t => ⟨rfl, rfl, rfl, rfl, rfl⟩, ?_, ?_, ?_⟩
  · intro t h
    simp [ldMergeOne, h]
  · intro t c h
    simp [ldMergeOne, h]
  · intro fs cs cols tk h
    exact mergeOne_none_of_no_context h

/-- Witness for the amended C1 theorem at concrete inputs. -/
theorem merge_left_join_amended_witness :
    ([exLDTok1].map (ldMergeOne "lem" [])).length = [exLDTok1].length
    ∧ (ldMergeOne "lem" [] exLDTok1).segment_text = "" :=
  ⟨(merge_left_join_amended "lem" [] [exLDTok1]).1,
   ((merge_left_join_amended "lem" [] [exLDTok1]).2.2.1 exLDTok1 rfl).1⟩

/-- Claim C2 counterexample: with an engine whose context stage raises
`boom`, ConcordanceView.fetchConcordance surfaces the bare engine
message (there is no stage-named QueryStageFailure wrapper anywhere in
the code), and LemmaDetail.loadLemma catches the concordance-stage
failure and returns a rendered result (missing data) with an empty
concordance. -/
theorem stage_failure_cex :
    (fetchConcordance boomEngine "lem" 100 noFilters).2 = .error "boom"
    ∧ loadLemma boomEngine "lem" =
        .rendered exBag1 [exBag1] [exBag1] [exBag1] [] :=
  ⟨rfl, rfl⟩

/-- Claim C2 (amended): a context-stage engine error makes
fetchConcordance reject the whole call with the underlying message
verbatim — no primary-only sequence is produced by that call —
but the error carries no stage name, and LemmaDetail.loadLemma swallows
a failed concordance fetch, rendering with an empty concordance. -/
theorem stage_failure_propagation_amended (e : Engine) (lemmaId : String)
    (limit : Nat) (filters : Filters) (tokens : List TokenRow) (m : String)
    (htok : e.runTokens (tokensSql lemmaId limit) = .ok tokens)
    (hne : tokens ≠ [])
    (hctx : e.runContexts
      (contextSql (inListJoin (segIdStrings tokens)) filters.dialect) = .error m) :
    (fetchConcordance e lemmaId limit filters).2 = .error m
    ∧ (∀ (rows fms atts etys : List BagRow) (d : BagRow) (m2 : String),
        e.runBag (lemmaSql lemmaId) = .ok rows → rows.head? = some d →
        e.runBag (formsSql lemmaId) = .ok fms →
        e.runBag (attestationsSql lemmaId) = .ok atts →
        e.runBag (etymologySql lemmaId) = .ok etys →
        (ldFetchConcordance e lemmaId 5).2 = .error m2 →
        loadLemma e lemmaId = .rendered d fms atts etys []) := by
  constructor
  · unfold fetchConcordance
    dsimp only
    rw [htok]
    dsimp only
    rw [if_neg (by simpa using fun h => hne (List.length_eq_zero.mp h))]
    rw [hctx]
  · intro rows fms atts etys d m2 hlem hhead hfms hatts hetys hconc
    unfold loadLemma
    simp only [hlem, hhead, hfms, hatts, hetys, hconc]

/-- Witness for the amended C2 theorem: the `boom` engine at limit 50. -/
theorem stage_failure_propagation_amended_witness :
    (fetchConcordance boomEngine "lem" 50 noFilters).2 = .error "boom"
    ∧ loadLemma boomEngine "lem" =
        .rendered exBag1 [exBag1] [exBag1] [exBag1] [] := by
  have h := stage_failure_propagation_amended boomEngine "lem" 50 noFilters
    [exTok1] "boom" rfl (by decide) rfl
  exact ⟨h.1, h.2 [exBag1] [exBag1] [exBag1] [exBag1] exBag1 "boom"
    rfl rfl rfl rfl rfl rfl⟩

/-- Claim C3: an empty primary result short-circuits both concordance
fetches — the result is the empty sequence and exactly one sub-query
(the primary one) is issued; neither the context nor the collections
query appears in the trace. -/
theorem empty_primary_short_circuit (e : Engine) (lemmaId : String) (limit : Nat)
    (filters : Filters)
    (h1 : e.runTokens (tokensSql lemmaId limit) = .ok [])
    (h2 : e.runLDTokens (ldTokensSql lemmaId limit) = .ok []) :
    fetchConcordance e lemmaId limit filters = ([tokensSql lemmaId limit], .ok [])
    ∧ ldFetchConcordance e lemmaId limit = ([ldTokensSql lemmaId limit], .ok []) := by
  constructor
  · unfold fetchConcordance
    dsimp only
    rw [h1]
    rfl
  · unfold ldFetchConcordance
    dsimp only
    rw [h2]
    rfl

/-- Witness for C3: an engine returning no rows. -/
theorem empty_primary_short_circuit_witness :
    fetchConcordance emptyEngine "x" 100 noFilters = ([tokensSql "x" 100], .ok [])
    ∧ ldFetchConcordance emptyEngine "x" 100 = ([ldTokensSql "x" 100], .ok []) :=
  empty_primary_short_circuit emptyEngine "x" 100 noFilters rfl rfl

/-- Claim C4 counterexample: non-string handling does not match the
claim — `escapeSQL(0)` yields the empty string, not the decimal digits
`0` (zero is falsy), and `escapeSQL(true)` yields `true` instead of the
boolean being rejected. -/
theorem escapeSQL_nonstring_cex :
    escapeSQL (.vint 0) = "" ∧ "" ≠ "0" ∧ escapeSQL (.vbool true) = "true" :=
  ⟨rfl, by decide, rfl⟩

/-- Claim C4 (amended): for every string the escaper doubles every
single quote and the SQL-literal reading of the escaped text restores
the string exactly (the round trip holds for zero, one or many quotes
and for arbitrary Unicode); truthy non-strings are first converted with
`String(...)` (nonzero integers to their decimal digits, `true` to
`true`), but falsy values — `0`, `false`, `null`, the empty string —
become the empty string, and booleans are not rejected. -/
theorem escapeSQL_amended (s : String) (n : Int) (hn : n ≠ 0) :
    escapeSQL (.vstr s) = (doubleChar squote s.data).asString
    ∧ undoubleChar squote (doubleChar squote s.data) = s.data
    ∧ escapeSQL (.vint n) = (doubleChar squote (toString n).data).asString
    ∧ escapeSQL (.vbool true) = "true" ∧ escapeSQL (.vbool false) = "" := by
  refine ⟨?_, undoubleChar_doubleChar squote s.data, ?_, rfl, rfl⟩
  · by_cases hs : s = ""
    · subst hs; rfl
    · simp [escapeSQL, jsFalsy, jsString, hs]
  · simp [escapeSQL, jsFalsy, jsString, hn]

/-- Witness for the amended C4 theorem. -/
theorem escapeSQL_amended_witness :
    escapeSQL (.vstr "ab") = (doubleChar squote "ab".data).asString
    ∧ undoubleChar squote (doubleChar squote "ab".data) = "ab".data
    ∧ escapeSQL (.vint 7) = (doubleChar squote (toString (7 : Int)).data).asString
    ∧ escapeSQL (.vbool true) = "true" ∧ escapeSQL (.vbool false) = "" :=
  escapeSQL_amended "ab" 7 (by decide)

/-- Claim C7: with a truthy collection filter, a merged record (one
whose key found a context row) survives the deferred filter if and only
if the collection id of that context row equals the requested value. -/
theorem deferred_filter_iff (v : String) (hv : v ≠ "") (dialect : Option String)
    (contexts : List ContextRow) (cols : List (String × String)) (t : TokenRow)
    (c : ContextRow)
    (hfind : contexts.find? (fun c2 => c2.segment_id == t.segment_id) = some c) :
    (mergeOne ⟨some v, dialect⟩ contexts cols t).isSome ↔ c.collection_id = v := by
  have hv2 : (v == "") = false := by simpa using hv
  simp [mergeOne, hfind, collRejected, hv2]

/-- Witness for C7 at a matching concrete context row. -/
theorem deferred_filter_iff_witness :
    (mergeOne ⟨some "col1", none⟩ [exCtx1] [] exTok1).isSome ↔
      exCtx1.collection_id = "col1" :=
  deferred_filter_iff "col1" (by decide) none [exCtx1] [] exTok1 exCtx1 rfl

/-- Claim C10: DatabaseManager.query ignores its `params` argument — for
any two parameter lists the call performs the same query and returns the
same rows; only the pre-interpolated SQL text matters. -/
theorem dmQuery_params_ignored (conn : String → Except String (List BagRow))
    (isReady : Bool) (sql : String) (p1 p2 : List JSVal) :
    dmQuery conn isReady sql p1 = dmQuery conn isReady sql p2 := rfl

/-- Claim C5 counterexample: applied to the empty set, the inline
IN-list construction yields the empty text, so the assembled clause is
exactly the invalid form `IN ()` the claim says is never produced; no
zero-row-matching clause is produced for the empty set. -/
theorem in_clause_empty_cex :
    segIdStrings [] = [] ∧ inListJoin [] = ""
    ∧ "IN (" ++ inListJoin (segIdStrings []) ++ ")" = "IN ()" :=
  ⟨rfl, rfl, rfl⟩

/-- Claim C5 (amended): the construction is never invoked on an empty
set — every query `fetchConcordance` issues is the primary query or has
a nonempty IN list (the context stage is reached only with a nonempty
primary, the collections query only with a nonempty id list), and the
skipped collections stage behaves as zero rows: every lookup in the
empty collections map misses. -/
theorem in_clause_guarded_amended (e : Engine) (lemmaId : String) (limit : Nat)
    (filters : Filters) :
    (∀ q ∈ (fetchConcordance e lemmaId limit filters).1,
      q = tokensSql lemmaId limit
      ∨ (∃ ids : List String, ids ≠ [] ∧
          q = contextSql (inListJoin ids) filters.dialect)
      ∨ (∃ ids : List String, ids ≠ [] ∧
          q = collectionSql (inListJoin ids) filters.collection))
    ∧ (∀ k : String, objGet [] k = none) := by
  constructor
  · intro q hq
    unfold fetchConcordance at hq
    dsimp only at hq
    cases htok : e.runTokens (tokensSql lemmaId limit) with
    | error m =>
      rw [htok] at hq
      dsimp only at hq
      exact Or.inl (List.mem_singleton.mp hq)
    | ok tokens =>
      rw [htok] at hq
      dsimp only at hq
      by_cases h0 : (tokens.length == 0) = true
      · rw [if_pos h0] at hq
        exact Or.inl (List.mem_singleton.mp hq)
      · rw [if_neg h0] at hq
        have htne : tokens ≠ [] := fun h => h0 (by simp [h])
        have hids : segIdStrings tokens ≠ [] := by
          simp [segIdStrings, htne]
        cases hctx : e.runContexts
            (contextSql (inListJoin (segIdStrings tokens)) filters.dialect) with
        | error m =>
          rw [hctx] at hq
          dsimp only at hq
          rcases List.mem_cons.mp hq with h | h
          · exact Or.inl h
          · exact Or.inr (Or.inl ⟨segIdStrings tokens, hids, List.mem_singleton.mp h⟩)
        | ok contexts =>
          rw [hctx] at hq
          dsimp only at hq
          by_cases hcol : (collectionIdsOf contexts).length > 0
          · rw [if_pos hcol] at hq
            have hcne : collectionIdsOf contexts ≠ [] := by
              intro h
              rw [h] at hcol
              exact absurd hcol (by simp)
            have hcids : (collectionIdsOf contexts).map
                (fun i => sqs ++ escapeSQLs i ++ sqs) ≠ [] := by
              simp [hcne]
            cases hcq : e.runCollections (collectionSql
                (inListJoin ((collectionIdsOf contexts).map
                  (fun i => sqs ++ escapeSQLs i ++ sqs))) filters.collection) with
            | error m =>
              rw [hcq] at hq
              dsimp only at hq
              rcases List.mem_cons.mp hq with h | h
              · exact Or.inl h
              rcases List.mem_cons.mp h with h2 | h2
              · exact Or.inr (Or.inl ⟨segIdStrings tokens, hids, h2⟩)
              · exact Or.inr (Or.inr ⟨_, hcids, List.mem_singleton.mp h2⟩)
            | ok colRows =>
              rw [hcq] at hq
              dsimp only at hq
              rcases List.mem_cons.mp hq with h | h
              · exact Or.inl h
              rcases List.mem_cons.mp h with h2 | h2
              · exact Or.inr (Or.inl ⟨segIdStrings tokens, hids, h2⟩)
              · exact Or.inr (Or.inr ⟨_, hcids, List.mem_singleton.mp h2⟩)
          · rw [if_neg hcol] at hq
            dsimp only at hq
            rcases List.mem_cons.mp hq with h | h
            · exact Or.inl h
            · exact Or.inr (Or.inl ⟨segIdStrings tokens, hids, List.mem_singleton.mp h⟩)
  · intro k
    rfl

/-- Witness for the amended C5 theorem at the empty engine, whose trace
is the primary query alone. -/
theorem in_clause_guarded_amended_witness :
    tokensSql "x" 100 = tokensSql "x" 100
    ∨ (∃ ids : List String, ids ≠ [] ∧
        tokensSql "x" 100 = contextSql (inListJoin ids) noFilters.dialect)
    ∨ (∃ ids : List String, ids ≠ [] ∧
        tokensSql "x" 100 = collectionSql (inListJoin ids) noFilters.collection) :=
  (in_clause_guarded_amended emptyEngine "x" 100 noFilters).1
    (tokensSql "x" 100) (List.mem_singleton.mpr rfl)

/-- Claim C6: whatever the engine answers, a successful concordance
fetch returns records whose token ids form an order-preserving
subsequence of the primary result, and (given the engine honours the
LIMIT clause, so the primary result has at most `limit` rows) the
output never exceeds the requested limit. -/
theorem order_preserved_and_capped (e : Engine) (lemmaId : String) (limit : Nat)
    (filters : Filters) (tokens : List TokenRow) (out : List CUnifiedRecord)
    (htok : e.runTokens (tokensSql lemmaId limit) = .ok tokens)
    (hlim : tokens.length ≤ limit)
    (hout : (fetchConcordance e lemmaId limit filters).2 = .ok out) :
    (out.map CUnifiedRecord.token_id).Sublist (tokens.map TokenRow.token_id)
    ∧ out.length ≤ limit := by
  obtain ⟨contexts, cols, hshape⟩ :=
    fetchConcordance_ok_shape e lemmaId limit filters tokens out htok hout
  subst hshape
  constructor
  · exact filterMap_map_sublist _ _ _ (fun a b h => mergeOne_token_id h) tokens
  · exact le_trans (List.length_filterMap_le _ _) hlim

/-- Witness for C6 on a concrete engine with two primary rows, one of
which survives the merge. -/
theorem order_preserved_and_capped_witness :
    (([exRec1].map CUnifiedRecord.token_id).Sublist
      ([exTok1, exTok3].map TokenRow.token_id))
    ∧ ([exRec1] : List CUnifiedRecord).length ≤ 100 :=
  order_preserved_and_capped exEngine "lem" 100 noFilters [exTok1, exTok3]
    [exRec1] rfl (by decide) rfl

/-- Claim C8 counterexample: two primary records sharing segment id
`s1` put that key into the context IN list twice — the list is not the
distinct set of merge-key values, contradicting each key appearing
exactly once. -/
theorem in_list_duplicates_cex :
    segIdStrings [exTok1, exTok2] = [sqs ++ "s1" ++ sqs, sqs ++ "s1" ++ sqs]
    ∧ (segIdStrings [exTok1, exTok2]).count (sqs ++ "s1" ++ sqs) = 2
    ∧ (2 : Nat) ≠ 1 :=
  ⟨rfl, rfl, by decide⟩

/-- Claim C8 (amended): the context stage still issues exactly one
query, but its IN list carries the segment id of each primary record
in primary order, duplicates included; only the collections stage
deduplicates, and its id list is exactly the distinct set of truthy
collection ids of the context rows. -/
theorem in_list_contents_amended (e : Engine) (lemmaId : String) (limit : Nat)
    (filters : Filters) (tokens : List TokenRow) (contexts : List ContextRow)
    (htok : e.runTokens (tokensSql lemmaId limit) = .ok tokens)
    (hne : tokens ≠ []) :
    (∃ rest, (fetchConcordance e lemmaId limit filters).1 =
        tokensSql lemmaId limit ::
          contextSql (inListJoin (segIdStrings tokens)) filters.dialect :: rest
      ∧ rest.length ≤ 1)
    ∧ segIdStrings tokens =
        tokens.map (fun t => sqs ++ escapeSQLs t.segment_id ++ sqs)
    ∧ (collectionIdsOf contexts).Nodup
    ∧ (∀ x, x ∈ collectionIdsOf contexts ↔
        (x ∈ contexts.map ContextRow.collection_id ∧ x ≠ "")) := by
  refine ⟨?_, rfl, nodup_dedupFirst _ [], ?_⟩
  · unfold fetchConcordance
    dsimp only
    rw [htok]
    dsimp only
    rw [if_neg (show ¬(tokens.length == 0) = true by
      simpa using fun h => hne (List.length_eq_zero.mp h))]
    cases hctx : e.runContexts
        (contextSql (inListJoin (segIdStrings tokens)) filters.dialect) with
    | error m =>
      exact ⟨[], rfl, by simp⟩
    | ok contexts2 =>
      dsimp only
      by_cases hcol : (collectionIdsOf contexts2).length > 0
      · rw [if_pos hcol]
        cases hcq : e.runCollections (collectionSql
            (inListJoin ((collectionIdsOf contexts2).map
              (fun i => sqs ++ escapeSQLs i ++ sqs))) filters.collection) with
        | error m => exact ⟨[_], rfl, by simp⟩
        | ok colRows => exact ⟨[_], rfl, by simp⟩
      · rw [if_neg hcol]
        exact ⟨[], rfl, by simp⟩
  · intro x
    rw [collectionIdsOf, mem_dedupFirst]
    simp [List.mem_filter]

/-- Witness for the amended C8 theorem on concrete data. -/
theorem in_list_contents_amended_witness :
    segIdStrings [exTok1, exTok3] =
      [exTok1, exTok3].map (fun t => sqs ++ escapeSQLs t.segment_id ++ sqs)
    ∧ (collectionIdsOf [exCtx1]).Nodup :=
  ⟨(in_list_contents_amended exEngine "lem" 100 noFilters [exTok1, exTok3]
      [exCtx1] rfl (by decide)).2.1,
   (in_list_contents_amended exEngine "lem" 100 noFilters [exTok1, exTok3]
      [exCtx1] rfl (by decide)).2.2.1⟩

/-- Claim C9 counterexample: with one record mapping a to 1 and another
mapping b to 2, the export uses only the field set of the first record:
the output consists of header a, value 1 and an empty cell, while field
b of the second record (stringified value 2) appears nowhere, so the
export does not preserve the field set of every input record. -/
theorem exportToCSV_field_set_cex :
    exportToCSV [[("a", .vint 1)], [("b", .vint 2)]] = some "a\n1\n"
    ∧ csvStringValue (.vint 2) = "2"
    ∧ ("a\n1\n".data.contains (Char.ofNat 50)) = false :=
  ⟨rfl, rfl, rfl⟩

/-- Claim C9 (amended): a field value is quoted with internal quotes
doubled exactly when its stringified form contains the delimiter, the
quote character or a newline (and the doubling is invertible, so the
encoding loses nothing); the export applies the field set and order of
the FIRST record to every row, so the field set and order of each
record is preserved exactly when all records share the field list of
the first record — as the concordance export data does. -/
theorem exportToCSV_amended (v : JSVal) (data : List BagRow) (ks : List String)
    (hne : data ≠ [])
    (hks : ∀ r ∈ data, r.map Prod.fst = ks)
    (hnd : ks.Nodup) :
    (csvNeedsQuote (csvStringValue v) = true →
      csvField v = dqs ++ (doubleChar dquote (csvStringValue v).data).asString ++ dqs)
    ∧ (csvNeedsQuote (csvStringValue v) = false → csvField v = csvStringValue v)
    ∧ undoubleChar dquote (doubleChar dquote (csvStringValue v).data) =
        (csvStringValue v).data
    ∧ exportToCSV data = some (String.intercalate "\n"
        ((String.intercalate "," ks) ::
          data.map (fun r => String.intercalate ","
            (r.map (fun p => csvField p.2))))) := by
  refine ⟨?_, ?_, undoubleChar_doubleChar dquote _, ?_⟩
  · intro h
    simp [csvField, h]
  · intro h
    simp [csvField, h]
  · cases data with
    | nil => exact absurd rfl hne
    | cons first rest =>
      have hfirst : first.map Prod.fst = ks := hks first (List.mem_cons_self _ _)
      unfold exportToCSV
      dsimp only
      rw [hfirst]
      have hrow : ∀ row ∈ first :: rest,
          String.intercalate "," (ks.map (fun h => csvField (bagGet row h))) =
          String.intercalate "," (row.map (fun p => csvField p.2)) := by
        intro row hm
        have h1 : row.map Prod.fst = ks := hks row hm
        have h2 := bagGet_aligned row (by rw [h1]; exact hnd)
        rw [h1] at h2
        rw [h2]
      rw [List.map_congr_left hrow]

/-- Witness for the amended C9 theorem on a one-record data set. -/
theorem exportToCSV_amended_witness :
    exportToCSV [[("a", .vint 1)]] = some (String.intercalate "\n"
      ((String.intercalate "," ["a"]) ::
        [[("a", JSVal.vint 1)]].map (fun r => String.intercalate ","
          (r.map (fun p => csvField p.2))))) :=
  (exportToCSV_amended (.vstr "") [[("a", .vint 1)]] ["a"]
    (by decide) (by decide) (by decide)).2.2.2

end Kemet
